import Mathlib

/-!
Verification of the stdout-scraping and filename-derivation logic of the
nipype dcm2nii / dcm2niix / mrtrix adapter classes.

The Python source (src/nipype/interfaces/dcm2nii.py and
src/nipype/interfaces/mrtrix/preprocess.py) is shallowly embedded below:
strings are Lean `String`s manipulated through their character lists,
Python `os.path` functions are translated to executable Lean functions,
the line-by-line stdout scan becomes an explicit step function on a state
record, and code paths that can raise a Python exception are modelled by
`Option` (a raised exception is `none`).
-/

/-! ### Basic string machinery (Python semantics, character-list level) -/

/-- Whitespace characters of the Python regular-expression class \s
(ASCII range), used to delimit \S+ tokens. -/
def pyIsSpace (c : Char) : Bool :=
  c = ' ' || c = '\t' || c = '\n' || c = '\r' || c = '\x0b' || c = '\x0c'

/-- The `line.startswith(pre)` test of Python. -/
def chStartsWith (s pre : String) : Bool :=
  pre.data.isPrefixOf s.data

/-- The `line[n:]` slice of Python (drop the first `n` characters). -/
def strDropN (s : String) (n : Nat) : String :=
  ⟨s.data.drop n⟩

/-- Substring occurrence test on character lists: does `pat` occur
(contiguously) inside `l`?  Models `re.search` with a literal pattern and
the Python `in` operator. -/
def hasSubstrL (pat : List Char) : List Char → Bool
  | [] => pat.isEmpty
  | c :: rest => pat.isPrefixOf (c :: rest) || hasSubstrL pat rest

/-- The `pat in line` test of Python (and the success condition of
`re.search` for a pattern with no metacharacters). -/
def strHasSubstr (s pat : String) : Bool :=
  hasSubstrL pat.data s.data

/-- Text after the last occurrence of `pat` in `l`, or `none` when `pat`
does not occur.  Models the captured group of `re.search(".*PAT(.*)", line)`
whose greedy leading `.*` selects the last occurrence of `PAT`. -/
def afterLastL (pat : List Char) : List Char → Option (List Char)
  | [] => none
  | c :: rest =>
    match afterLastL pat rest with
    | some r => some r
    | none =>
      if pat.isPrefixOf (c :: rest) then some ((c :: rest).drop pat.length)
      else none

/-- String wrapper for `afterLastL`. -/
def afterLastStr (pat line : String) : Option String :=
  (afterLastL pat.data line.data).map (fun l => ⟨l⟩)

/-- Maximal whitespace-delimited runs of non-space characters (the
candidate substrings a `\S+`-based regular expression can match inside). -/
def tokensAux (cur : List Char) : List Char → List (List Char)
  | [] => if cur.isEmpty then [] else [cur.reverse]
  | c :: rest =>
    if pyIsSpace c then
      if cur.isEmpty then tokensAux [] rest
      else cur.reverse :: tokensAux [] rest
    else tokensAux (c :: cur) rest

/-- Does the token contain a slash at an internal position (neither first
nor last character)?  A maximal non-space run `t` admits a match of the
regular expression \S+/\S+ starting at its first character exactly when
this holds, and the (greedy) match is then the whole run. -/
def hasInternalSlash (t : List Char) : Bool :=
  ((t.drop 1).dropLast).contains '/'

/-- Models `re.search(r"\S+/\S+", line)`: the leftmost match is the first
whitespace-delimited token with an internal slash, matched in full. -/
def searchSlashToken (line : String) : Option String :=
  ((tokensAux [] line.data).find? hasInternalSlash).map (fun t => ⟨t⟩)

/-- The `stdout.split("\n")` of Python, on character lists. -/
def splitNlChars : List Char → List (List Char)
  | [] => [[]]
  | c :: rest =>
    if c = '\n' then [] :: splitNlChars rest
    else
      match splitNlChars rest with
      | t :: ts => (c :: t) :: ts
      | [] => [[c]]

/-- The `stdout.split("\n")` of Python. -/
def splitOnNl (s : String) : List String :=
  (splitNlChars s.data).map (fun l => ⟨l⟩)

/-! ### Python os.path functions (posixpath semantics) -/

/-- Split a character list on the slash character, Python `p.split("/")`. -/
def splitSlashChars : List Char → List (List Char)
  | [] => [[]]
  | c :: rest =>
    if c = '/' then [] :: splitSlashChars rest
    else
      match splitSlashChars rest with
      | t :: ts => (c :: t) :: ts
      | [] => [[c]]

/-- Intercalate components with slashes, Python `"/".join(comps)`. -/
def joinSlash : List (List Char) → List Char
  | [] => []
  | [t] => t
  | t :: ts => t ++ '/' :: joinSlash ts

/-- The `posixpath.isabs` test (the path starts with a slash). -/
def pyIsAbs (p : String) : Bool :=
  decide (p.data.take 1 = ['/'])

/-- The `posixpath.join(a, b)` function of Python, on character lists. -/
def pyJoinL (a b : List Char) : List Char :=
  if b.take 1 = ['/'] then b
  else if a = [] || a.getLast? = some '/' then a ++ b
  else a ++ '/' :: b

/-- The `os.path.join(a, b)` function of Python. -/
def pyJoin (a b : String) : String :=
  ⟨pyJoinL a.data b.data⟩

/-- The `posixpath.normpath` function of Python, on character lists:
collapses empty and "." components and resolves ".." components. -/
def pyNormpathL (p : List Char) : List Char :=
  if p = [] then ['.']
  else
    let initialSlashes : Nat :=
      if p.take 1 = ['/'] then
        (if p.take 2 = ['/', '/'] && !(p.take 3 = ['/', '/', '/']) then 2 else 1)
      else 0
    let comps := splitSlashChars p
    let newComps := comps.foldl (fun acc comp =>
      if comp = [] || comp = ['.'] then acc
      else if !(comp = ['.', '.']) || (initialSlashes = 0 && acc = [])
              || (acc.getLast? = some ['.', '.']) then acc ++ [comp]
      else acc.dropLast) []
    let res := List.replicate initialSlashes '/' ++ joinSlash newComps
    if res = [] then ['.'] else res

/-- The `os.path.normpath` function of Python. -/
def pyNormpath (p : String) : String :=
  ⟨pyNormpathL p.data⟩

/-- The `os.path.abspath` function of Python, with the working directory
passed explicitly (the code obtains it from `os.getcwd()`). -/
def pyAbspath (cwd p : String) : String :=
  if pyIsAbs p then pyNormpath p else pyNormpath (pyJoin cwd p)

/-- The `os.path.split` function of Python, on character lists: the tail is
everything after the last slash, the head is the part before it with
trailing slashes stripped (unless the head consists only of slashes). -/
def pySplitL (p : List Char) : List Char × List Char :=
  let tailRev := p.reverse.takeWhile (fun c => !(c = '/'))
  let tl := tailRev.reverse
  let hd := p.take (p.length - tl.length)
  if hd = [] || hd.all (fun c => c = '/') then (hd, tl)
  else ((hd.reverse.dropWhile (fun c => c = '/')).reverse, tl)

/-- The `os.path.split` function of Python. -/
def pySplit (p : String) : String × String :=
  let r := pySplitL p.data
  (⟨r.1⟩, ⟨r.2⟩)

/-- Modelled from the spec: the filename-suffixing utility
`nipype.utils.filemanip.split_filename` is not part of the source excerpt;
per the spec it "splits a path into directory/basename/extension".  The
directory split follows `os.path.split`; the extension is taken from the
last dot of the basename (including the dot), empty when there is none. -/
def split_filename (p : String) : String × String × String :=
  let r := pySplitL p.data
  let extRev := r.2.reverse.takeWhile (fun c => !(c = '.'))
  if extRev.length = r.2.length then (⟨r.1⟩, ⟨r.2⟩, "")
  else (⟨r.1⟩, ⟨r.2.take (r.2.length - extRev.length - 1)⟩, ⟨'.' :: extRev.reverse⟩)

/-! ### Dcm2nii._parse_stdout (src/nipype/interfaces/dcm2nii.py, lines 57-106) -/

/-- Configuration consumed by `Dcm2nii._parse_stdout`: the `output_dir`
input (`none` when undefined, in which case `_gen_filename` substitutes the
working directory) and the working directory itself. -/
structure Dcm2niiConfig where
  output_dir : Option String
  cwd : String
deriving DecidableEq

/-- Loop state of `Dcm2nii._parse_stdout`: the five output accumulators,
the skip-next-line flag, and the most recently added file. -/
structure Dcm2niiState where
  files : List String
  reoriented_files : List String
  reoriented_and_cropped_files : List String
  bvecs : List String
  bvals : List String
  skip : Bool
  last_added_file : Option String
deriving DecidableEq

/-- Initial parser state of `Dcm2nii._parse_stdout`. -/
def initDcm2niiState : Dcm2niiState :=
  ⟨[], [], [], [], [], false, none⟩

/-- The tail of the loop body of `Dcm2nii._parse_stdout` (reached when no
truthy `file` was extracted): the "Reorienting as " and
"Cropping NIfTI/Analyze image " checks, else clearing the skip flag. -/
def dcm2niiFinish (s : Dcm2niiState) (line : String) : Dcm2niiState :=
  if chStartsWith line "Reorienting as " then
    { s with
      reoriented_files := s.reoriented_files ++ [strDropN line ("Reorienting as ".length)],
      skip := true }
  else if chStartsWith line "Cropping NIfTI/Analyze image " then
    let r := pySplit (strDropN line ("Cropping NIfTI/Analyze image ".length))
    { s with
      reoriented_and_cropped_files :=
        s.reoriented_and_cropped_files ++ [pyJoin r.1 ("c" ++ r.2)],
      skip := true }
  else { s with skip := false }

/-- One loop iteration of `Dcm2nii._parse_stdout`.  `none` models a raised
exception (the `.groups()` call on a failed `re.search(".*--> (.*)")`). -/
def dcm2niiStep (cfg : Dcm2niiConfig) (s : Dcm2niiState) (line : String) :
    Option Dcm2niiState :=
  if s.skip then some { s with skip := false }
  else if chStartsWith line "Saving " then
    let file := strDropN line ("Saving ".length)
    some (if file = "" then dcm2niiFinish s line
          else { s with files := s.files ++ [file], last_added_file := some file })
  else if chStartsWith line "GZip..." then
    let od := cfg.output_dir.getD cfg.cwd
    let file := pyAbspath cfg.cwd (pyJoin od (strDropN line ("GZip...".length)))
    some (if file = "" then dcm2niiFinish s line
          else { s with files := s.files ++ [file], last_added_file := some file })
  else if chStartsWith line "Number of diffusion directions " then
    let s1 :=
      match s.last_added_file with
      | some laf =>
        if laf = "" then s
        else
          let r := split_filename laf
          { s with bvecs := s.bvecs ++ [pyJoin r.1 (r.2.1 ++ ".bvec")],
                   bvals := s.bvals ++ [pyJoin r.1 (r.2.1 ++ ".bval")] }
      | none => s
    some (dcm2niiFinish s1 line)
  else if strHasSubstr line "-->" then
    match afterLastStr "--> " line with
    | none => none
    | some file =>
      some (if file = "" then dcm2niiFinish s line
            else { s with files := s.files ++ [file], last_added_file := some file })
  else some (dcm2niiFinish s line)

/-- The loop of `Dcm2nii._parse_stdout` over a list of lines. -/
def dcm2niiProcessLines (cfg : Dcm2niiConfig) :
    Dcm2niiState → List String → Option Dcm2niiState
  | s, [] => some s
  | s, l :: ls =>
    match dcm2niiStep cfg s l with
    | none => none
    | some s1 => dcm2niiProcessLines cfg s1 ls

/-- `Dcm2nii._parse_stdout` on an already split list of lines. -/
def Dcm2nii.parse_lines (cfg : Dcm2niiConfig) (lines : List String) :
    Option (List String × List String × List String × List String × List String) :=
  (dcm2niiProcessLines cfg initDcm2niiState lines).map
    (fun s => (s.files, s.reoriented_files, s.reoriented_and_cropped_files,
               s.bvecs, s.bvals))

/-- `Dcm2nii._parse_stdout`: split the captured stdout on newlines and run
the scan; `none` models a raised exception. -/
def Dcm2nii.parse_stdout (cfg : Dcm2niiConfig) (stdout : String) :
    Option (List String × List String × List String × List String × List String) :=
  Dcm2nii.parse_lines cfg (splitOnNl stdout)

/-! ### Dcm2niix._parse_stdout (src/nipype/interfaces/dcm2nii.py, lines 205-245) -/

/-- Configuration consumed by `Dcm2niix._parse_stdout`: output directory
input, working directory, and the `bids_format` and `compress` inputs. -/
structure Dcm2niixConfig where
  output_dir : Option String
  cwd : String
  bids_format : Bool
  compress : Char
deriving DecidableEq

/-- Loop state of `Dcm2niix._parse_stdout`. -/
structure Dcm2niixState where
  files : List String
  bvecs : List String
  bvals : List String
  bids : List String
  skip : Bool
  find_b : Bool
deriving DecidableEq

/-- Initial parser state of `Dcm2niix._parse_stdout`. -/
def initDcm2niixState : Dcm2niixState :=
  ⟨[], [], [], [], false, false⟩

/-- One loop iteration of `Dcm2niix._parse_stdout`.  `none` models the
raised exception when `re.search(r"\S+/\S+", line)` finds nothing and
`.group(0)` is called on `None`. -/
def dcm2niixStep (cfg : Dcm2niixConfig) (s : Dcm2niixState) (line : String) :
    Option Dcm2niixState :=
  if s.skip then some { s with skip := false }
  else if chStartsWith line "Convert " then
    match searchSlashToken line with
    | none => none
    | some fname =>
      let od := cfg.output_dir.getD cfg.cwd
      let out_file := pyAbspath cfg.cwd (pyJoin od fname)
      let s1 :=
        if s.find_b then
          { s with bvecs := s.bvecs ++ [out_file ++ ".bvec"],
                   bvals := s.bvals ++ [out_file ++ ".bval"],
                   find_b := false }
        else s
      if out_file = "" then some { s1 with skip := false }
      else
        let s2 :=
          if cfg.compress = 'n' then { s1 with files := s1.files ++ [out_file ++ ".nii"] }
          else { s1 with files := s1.files ++ [out_file ++ ".nii.gz"] }
        some (if cfg.bids_format then { s2 with bids := s2.bids ++ [out_file ++ ".json"] }
              else s2)
  else if strHasSubstr line "DTI gradients" || strHasSubstr line "DTI gradient directions" then
    some { s with find_b := true, skip := false }
  else some { s with skip := false }

/-- The loop of `Dcm2niix._parse_stdout` over a list of lines. -/
def dcm2niixProcessLines (cfg : Dcm2niixConfig) :
    Dcm2niixState → List String → Option Dcm2niixState
  | s, [] => some s
  | s, l :: ls =>
    match dcm2niixStep cfg s l with
    | none => none
    | some s1 => dcm2niixProcessLines cfg s1 ls

/-- Return value of `Dcm2niix._parse_stdout`: a 3-tuple when the bids list
is empty (Python `if not bids`), a 4-tuple otherwise. -/
inductive Dcm2niixResult where
  | three (files bvecs bvals : List String)
  | four (files bvecs bvals bids : List String)
deriving DecidableEq

/-- Converted-files component of a `Dcm2niixResult`. -/
def Dcm2niixResult.resFiles : Dcm2niixResult → List String
  | .three files _ _ => files
  | .four files _ _ _ => files

/-- Gradient-vector component of a `Dcm2niixResult`. -/
def Dcm2niixResult.resBvecs : Dcm2niixResult → List String
  | .three _ bvecs _ => bvecs
  | .four _ bvecs _ _ => bvecs

/-- Gradient-value component of a `Dcm2niixResult`. -/
def Dcm2niixResult.resBvals : Dcm2niixResult → List String
  | .three _ _ bvals => bvals
  | .four _ _ bvals _ => bvals

/-- BIDS-sidecar component of a `Dcm2niixResult` (empty for a 3-tuple). -/
def Dcm2niixResult.resBids : Dcm2niixResult → List String
  | .three _ _ _ => []
  | .four _ _ _ bids => bids

/-- `Dcm2niix._parse_stdout` on an already split list of lines. -/
def Dcm2niix.parse_lines (cfg : Dcm2niixConfig) (lines : List String) :
    Option Dcm2niixResult :=
  (dcm2niixProcessLines cfg initDcm2niixState lines).map
    (fun s => if s.bids = [] then .three s.files s.bvecs s.bvals
              else .four s.files s.bvecs s.bvals s.bids)

/-- `Dcm2niix._parse_stdout`: split the captured stdout and run the scan;
`none` models a raised exception. -/
def Dcm2niix.parse_stdout (cfg : Dcm2niixConfig) (stdout : String) :
    Option Dcm2niixResult :=
  Dcm2niix.parse_lines cfg (splitOnNl stdout)

/-! ### Infrastructure lemmas about the two scan loops -/

/-- Updating the skip flag to `false` is the identity on a state whose
skip flag is already clear. -/
theorem dcm2niiState_eta_skip_false (s : Dcm2niiState) (h : s.skip = false) :
    { s with skip := false } = s := by
  cases s
  simp_all

/-- Skip-flag branch of `dcm2niiStep`: a skipped line is discarded
unclassified and the flag is cleared. -/
theorem dcm2niiStep_skip (cfg : Dcm2niiConfig) (s : Dcm2niiState) (line : String)
    (h : s.skip = true) :
    dcm2niiStep cfg s line = some { s with skip := false } := by
  simp [dcm2niiStep, h]

/-- On a line carrying no recognized marker, `dcm2niiStep` leaves the
state unchanged (given a clear skip flag). -/
theorem dcm2niiStep_nomarker (cfg : Dcm2niiConfig) (s : Dcm2niiState) (line : String)
    (hskip : s.skip = false)
    (h1 : chStartsWith line "Saving " = false)
    (h2 : chStartsWith line "GZip..." = false)
    (h3 : chStartsWith line "Number of diffusion directions " = false)
    (h4 : strHasSubstr line "-->" = false)
    (h5 : chStartsWith line "Reorienting as " = false)
    (h6 : chStartsWith line "Cropping NIfTI/Analyze image " = false) :
    dcm2niiStep cfg s line = some s := by
  simp [dcm2niiStep, dcm2niiFinish, hskip, h1, h2, h3, h4, h5, h6,
        dcm2niiState_eta_skip_false s hskip]

/-- Saving-branch of `dcm2niiStep` with a nonempty (truthy) remainder. -/
theorem dcm2niiStep_saving (cfg : Dcm2niiConfig) (s : Dcm2niiState) (line : String)
    (hskip : s.skip = false)
    (h1 : chStartsWith line "Saving " = true)
    (h2 : strDropN line ("Saving ".length) ≠ "") :
    dcm2niiStep cfg s line =
      some { s with files := s.files ++ [strDropN line ("Saving ".length)],
                    last_added_file := some (strDropN line ("Saving ".length)) } := by
  simp [dcm2niiStep, hskip, h1, h2]

/-- Diffusion-directions branch of `dcm2niiStep` with a truthy last added
file: appends derived companion names to bvecs and bvals. -/
theorem dcm2niiStep_ndiff (cfg : Dcm2niiConfig) (s : Dcm2niiState) (line : String)
    (laf : String)
    (hskip : s.skip = false)
    (h1 : chStartsWith line "Saving " = false)
    (h2 : chStartsWith line "GZip..." = false)
    (h3 : chStartsWith line "Number of diffusion directions " = true)
    (h5 : chStartsWith line "Reorienting as " = false)
    (h6 : chStartsWith line "Cropping NIfTI/Analyze image " = false)
    (hlaf : s.last_added_file = some laf) (hne : laf ≠ "") :
    dcm2niiStep cfg s line =
      some { s with
              bvecs := s.bvecs ++ [pyJoin (split_filename laf).1 ((split_filename laf).2.1 ++ ".bvec")],
              bvals := s.bvals ++ [pyJoin (split_filename laf).1 ((split_filename laf).2.1 ++ ".bval")],
              skip := false } := by
  simp [dcm2niiStep, dcm2niiFinish, hskip, h1, h2, h3, h5, h6, hlaf, hne]

/-- Reorienting-branch of `dcm2niiStep`: records the reoriented file and
sets the skip flag. -/
theorem dcm2niiStep_reorient (cfg : Dcm2niiConfig) (s : Dcm2niiState) (line : String)
    (hskip : s.skip = false)
    (h1 : chStartsWith line "Saving " = false)
    (h2 : chStartsWith line "GZip..." = false)
    (h3 : chStartsWith line "Number of diffusion directions " = false)
    (h4 : strHasSubstr line "-->" = false)
    (h5 : chStartsWith line "Reorienting as " = true) :
    dcm2niiStep cfg s line =
      some { s with
              reoriented_files := s.reoriented_files ++ [strDropN line ("Reorienting as ".length)],
              skip := true } := by
  simp [dcm2niiStep, dcm2niiFinish, hskip, h1, h2, h3, h4, h5]

/-- Arrow-branch of `dcm2niiStep` when the extraction pattern fails: the
line contains "-->" but no "--> ", and the scan raises. -/
theorem dcm2niiStep_arrow_raise (cfg : Dcm2niiConfig) (s : Dcm2niiState) (line : String)
    (hskip : s.skip = false)
    (h1 : chStartsWith line "Saving " = false)
    (h2 : chStartsWith line "GZip..." = false)
    (h3 : chStartsWith line "Number of diffusion directions " = false)
    (h4 : strHasSubstr line "-->" = true)
    (h5 : afterLastStr "--> " line = none) :
    dcm2niiStep cfg s line = none := by
  simp [dcm2niiStep, hskip, h1, h2, h3, h4, h5]

/-- Appending line lists composes the scan loop of `Dcm2nii`. -/
theorem dcm2niiProcessLines_append (cfg : Dcm2niiConfig) (s : Dcm2niiState)
    (l₁ l₂ : List String) :
    dcm2niiProcessLines cfg s (l₁ ++ l₂) =
      match dcm2niiProcessLines cfg s l₁ with
      | none => none
      | some s1 => dcm2niiProcessLines cfg s1 l₂ := by
  induction l₁ generalizing s with
  | nil => simp [dcm2niiProcessLines]
  | cons a t ih =>
    simp only [List.cons_append, dcm2niiProcessLines]
    cases dcm2niiStep cfg s a with
    | none => rfl
    | some s1 => exact ih s1

/-- Accumulator ordering between two `Dcm2nii` parser states: every output
list of the first is a prefix of the corresponding list of the second. -/
def dcm2niiLe (s t : Dcm2niiState) : Prop :=
  s.files <+: t.files ∧ s.reoriented_files <+: t.reoriented_files ∧
  s.reoriented_and_cropped_files <+: t.reoriented_and_cropped_files ∧
  s.bvecs <+: t.bvecs ∧ s.bvals <+: t.bvals

/-- The accumulator ordering is reflexive. -/
theorem dcm2niiLe_refl (s : Dcm2niiState) : dcm2niiLe s s :=
  ⟨List.prefix_refl _, List.prefix_refl _, List.prefix_refl _,
   List.prefix_refl _, List.prefix_refl _⟩

/-- The accumulator ordering is transitive. -/
theorem dcm2niiLe_trans {s t u : Dcm2niiState}
    (h1 : dcm2niiLe s t) (h2 : dcm2niiLe t u) : dcm2niiLe s u :=
  ⟨h1.1.trans h2.1, h1.2.1.trans h2.2.1, h1.2.2.1.trans h2.2.2.1,
   h1.2.2.2.1.trans h2.2.2.2.1, h1.2.2.2.2.trans h2.2.2.2.2⟩

/-- The tail of the loop body only appends to accumulators. -/
theorem dcm2niiFinish_le (s : Dcm2niiState) (line : String) :
    dcm2niiLe s (dcm2niiFinish s line) := by
  unfold dcm2niiFinish dcm2niiLe
  split
  · exact ⟨List.prefix_refl _, List.prefix_append _ _, List.prefix_refl _,
           List.prefix_refl _, List.prefix_refl _⟩
  · split
    · exact ⟨List.prefix_refl _, List.prefix_refl _, List.prefix_append _ _,
             List.prefix_refl _, List.prefix_refl _⟩
    · exact dcm2niiLe_refl s

/-- A state obtained from `s` by appending one file keeps `s` as a prefix
of every accumulator. -/
theorem dcm2niiLe_addfile (s : Dcm2niiState) (f : String) :
    dcm2niiLe s { s with files := s.files ++ [f], last_added_file := some f } :=
  ⟨List.prefix_append _ _, List.prefix_refl _, List.prefix_refl _,
   List.prefix_refl _, List.prefix_refl _⟩

/-- A single loop iteration only appends to accumulators. -/
theorem dcm2niiStep_le (cfg : Dcm2niiConfig) (s : Dcm2niiState) (line : String)
    (s1 : Dcm2niiState) (h : dcm2niiStep cfg s line = some s1) :
    dcm2niiLe s s1 := by
  unfold dcm2niiStep at h
  dsimp only at h
  split at h
  · cases h
    exact dcm2niiLe_refl s
  · split at h
    · split at h <;> cases h
      · exact dcm2niiFinish_le s line
      · exact dcm2niiLe_addfile s _
    · split at h
      · split at h <;> cases h
        · exact dcm2niiFinish_le s line
        · exact dcm2niiLe_addfile s _
      · split at h
        · cases h
          refine dcm2niiLe_trans ?_ (dcm2niiFinish_le _ line)
          split
          · split
            · exact dcm2niiLe_refl s
            · exact ⟨List.prefix_refl _, List.prefix_refl _, List.prefix_refl _,
                     List.prefix_append _ _, List.prefix_append _ _⟩
          · exact dcm2niiLe_refl s
        · split at h
          · split at h
            · cases h
            · split at h <;> cases h
              · exact dcm2niiFinish_le s line
              · exact dcm2niiLe_addfile s _
          · cases h
            exact dcm2niiFinish_le s line

/-- The whole scan loop only appends to accumulators. -/
theorem dcm2niiProcessLines_le (cfg : Dcm2niiConfig) (s : Dcm2niiState)
    (lines : List String) (s1 : Dcm2niiState)
    (h : dcm2niiProcessLines cfg s lines = some s1) :
    dcm2niiLe s s1 := by
  induction lines generalizing s with
  | nil =>
    cases h
    exact dcm2niiLe_refl s1
  | cons a t ih =>
    unfold dcm2niiProcessLines at h
    cases hs : dcm2niiStep cfg s a with
    | none => rw [hs] at h; cases h
    | some s2 =>
      rw [hs] at h
      exact dcm2niiLe_trans (dcm2niiStep_le cfg s a s2 hs) (ih s2 h)

/-- Updating the skip flag to `false` is the identity on a `Dcm2niix`
state whose skip flag is already clear. -/
theorem dcm2niixState_eta_skip_false (s : Dcm2niixState) (h : s.skip = false) :
    { s with skip := false } = s := by
  cases s
  simp_all

/-- Appending line lists composes the scan loop of `Dcm2niix`. -/
theorem dcm2niixProcessLines_append (cfg : Dcm2niixConfig) (s : Dcm2niixState)
    (l₁ l₂ : List String) :
    dcm2niixProcessLines cfg s (l₁ ++ l₂) =
      match dcm2niixProcessLines cfg s l₁ with
      | none => none
      | some s1 => dcm2niixProcessLines cfg s1 l₂ := by
  induction l₁ generalizing s with
  | nil => simp [dcm2niixProcessLines]
  | cons a t ih =>
    simp only [List.cons_append, dcm2niixProcessLines]
    cases dcm2niixStep cfg s a with
    | none => rfl
    | some s1 => exact ih s1

/-- Starting from a clear skip flag, every state reached by one `Dcm2niix`
iteration has a clear skip flag: the loop never sets it. -/
theorem dcm2niixStep_skip_false' (cfg : Dcm2niixConfig) (s : Dcm2niixState)
    (line : String) (s1 : Dcm2niixState) (h : dcm2niixStep cfg s line = some s1)
    (hs : s.skip = false) : s1.skip = false := by
  unfold dcm2niixStep at h
  dsimp only at h
  split at h
  · cases h; rfl
  · split at h
    · split at h
      · cases h
      · split at h
        · cases h; rfl
        · split at h <;> split at h <;> cases h <;> split <;> simp [hs]
    · split at h <;> cases h <;> rfl

/-- The skip flag stays clear across the whole `Dcm2niix` loop. -/
theorem dcm2niixProcessLines_skip_false (cfg : Dcm2niixConfig) (s : Dcm2niixState)
    (lines : List String) (s1 : Dcm2niixState)
    (h : dcm2niixProcessLines cfg s lines = some s1) (hs : s.skip = false) :
    s1.skip = false := by
  induction lines generalizing s with
  | nil => cases h; exact hs
  | cons a t ih =>
    unfold dcm2niixProcessLines at h
    cases hstep : dcm2niixStep cfg s a with
    | none => rw [hstep] at h; cases h
    | some s2 =>
      rw [hstep] at h
      exact ih s2 h (dcm2niixStep_skip_false' cfg s a s2 hstep hs)

/-- Accumulator ordering between two `Dcm2niix` parser states. -/
def dcm2niixLe (s t : Dcm2niixState) : Prop :=
  s.files <+: t.files ∧ s.bvecs <+: t.bvecs ∧ s.bvals <+: t.bvals ∧ s.bids <+: t.bids

/-- The `Dcm2niix` accumulator ordering is reflexive. -/
theorem dcm2niixLe_refl (s : Dcm2niixState) : dcm2niixLe s s :=
  ⟨List.prefix_refl _, List.prefix_refl _, List.prefix_refl _, List.prefix_refl _⟩

/-- The `Dcm2niix` accumulator ordering is transitive. -/
theorem dcm2niixLe_trans {s t u : Dcm2niixState}
    (h1 : dcm2niixLe s t) (h2 : dcm2niixLe t u) : dcm2niixLe s u :=
  ⟨h1.1.trans h2.1, h1.2.1.trans h2.2.1, h1.2.2.1.trans h2.2.2.1,
   h1.2.2.2.trans h2.2.2.2⟩

/-- A single `Dcm2niix` iteration only appends to accumulators. -/
theorem dcm2niixStep_le (cfg : Dcm2niixConfig) (s : Dcm2niixState) (line : String)
    (s1 : Dcm2niixState) (h : dcm2niixStep cfg s line = some s1) :
    dcm2niixLe s s1 := by
  unfold dcm2niixStep at h
  dsimp only at h
  unfold dcm2niixLe
  split at h
  · cases h; exact dcm2niixLe_refl s
  · split at h
    · split at h
      · cases h
      · split at h
        · cases h
          split
          · exact ⟨List.prefix_refl _, List.prefix_append _ _, List.prefix_append _ _,
                   List.prefix_refl _⟩
          · exact dcm2niixLe_refl s
        · cases h
          split <;> split <;> split <;>
            refine ⟨?_, ?_, ?_, ?_⟩ <;>
            first
              | exact List.prefix_refl _
              | exact List.prefix_append _ _
    · split at h <;> cases h <;> exact dcm2niixLe_refl s

/-- The whole `Dcm2niix` loop only appends to accumulators. -/
theorem dcm2niixProcessLines_le (cfg : Dcm2niixConfig) (s : Dcm2niixState)
    (lines : List String) (s1 : Dcm2niixState)
    (h : dcm2niixProcessLines cfg s lines = some s1) :
    dcm2niixLe s s1 := by
  induction lines generalizing s with
  | nil => cases h; exact dcm2niixLe_refl s1
  | cons a t ih =>
    unfold dcm2niixProcessLines at h
    cases hstep : dcm2niixStep cfg s a with
    | none => rw [hstep] at h; cases h
    | some s2 =>
      rw [hstep] at h
      exact dcm2niixLe_trans (dcm2niixStep_le cfg s a s2 hstep) (ih s2 h)

/-- State update performed by the "Convert " branch of
`Dcm2niix._parse_stdout` once a truthy `out_file` has been resolved. -/
def dcm2niixConvertUpdate (cfg : Dcm2niixConfig) (s : Dcm2niixState)
    (out_file : String) : Dcm2niixState :=
  let s1 :=
    if s.find_b then
      { s with bvecs := s.bvecs ++ [out_file ++ ".bvec"],
               bvals := s.bvals ++ [out_file ++ ".bval"],
               find_b := false }
    else s
  let s2 :=
    if cfg.compress = 'n' then { s1 with files := s1.files ++ [out_file ++ ".nii"] }
    else { s1 with files := s1.files ++ [out_file ++ ".nii.gz"] }
  if cfg.bids_format then { s2 with bids := s2.bids ++ [out_file ++ ".json"] } else s2

/-- Convert-branch of `dcm2niixStep` with a successful path extraction and
a truthy resolved output file. -/
theorem dcm2niixStep_convert (cfg : Dcm2niixConfig) (s : Dcm2niixState)
    (line fname : String)
    (hs : s.skip = false)
    (hc : chStartsWith line "Convert " = true)
    (hst : searchSlashToken line = some fname)
    (hne : pyAbspath cfg.cwd (pyJoin (cfg.output_dir.getD cfg.cwd) fname) ≠ "") :
    dcm2niixStep cfg s line =
      some (dcm2niixConvertUpdate cfg s
        (pyAbspath cfg.cwd (pyJoin (cfg.output_dir.getD cfg.cwd) fname))) := by
  simp [dcm2niixStep, dcm2niixConvertUpdate, hs, hc, hst, hne]

/-- Convert-branch of `dcm2niixStep` when the path extraction fails: the
scan raises. -/
theorem dcm2niixStep_convert_raise (cfg : Dcm2niixConfig) (s : Dcm2niixState)
    (line : String)
    (hs : s.skip = false)
    (hc : chStartsWith line "Convert " = true)
    (hst : searchSlashToken line = none) :
    dcm2niixStep cfg s line = none := by
  simp [dcm2niixStep, hs, hc, hst]

/-- Gradient-marker branch of `dcm2niixStep`: sets the pending-gradient
flag. -/
theorem dcm2niixStep_marker (cfg : Dcm2niixConfig) (s : Dcm2niixState) (line : String)
    (hs : s.skip = false)
    (hc : chStartsWith line "Convert " = false)
    (hm : strHasSubstr line "DTI gradients" = true ∨
          strHasSubstr line "DTI gradient directions" = true) :
    dcm2niixStep cfg s line = some { s with find_b := true, skip := false } := by
  rcases hm with hm | hm <;> simp [dcm2niixStep, hs, hc, hm]

/-- On a line with no "Convert " prefix and no gradient marker,
`dcm2niixStep` leaves the state unchanged (given a clear skip flag). -/
theorem dcm2niixStep_nomarker (cfg : Dcm2niixConfig) (s : Dcm2niixState) (line : String)
    (hs : s.skip = false)
    (hc : chStartsWith line "Convert " = false)
    (h1 : strHasSubstr line "DTI gradients" = false)
    (h2 : strHasSubstr line "DTI gradient directions" = false) :
    dcm2niixStep cfg s line = some s := by
  simp [dcm2niixStep, hs, hc, h1, h2, dcm2niixState_eta_skip_false s hs]

/-- A `Dcm2niix` state reached from a no-find_b state by lines without any
"Convert " prefix keeps all accumulators and only toggles `find_b`. -/
theorem dcm2niixProcessLines_noConvert (cfg : Dcm2niixConfig) (lines : List String)
    (h : ∀ l ∈ lines, chStartsWith l "Convert " = false) :
    ∀ s : Dcm2niixState, s.skip = false →
      ∃ fb : Bool, dcm2niixProcessLines cfg s lines =
        some { s with find_b := fb } := by
  induction lines with
  | nil =>
    intro s hs
    exact ⟨s.find_b, by simp [dcm2niixProcessLines]⟩
  | cons a t ih =>
    intro s hs
    have ha := h a (List.mem_cons_self a t)
    have ht : ∀ l ∈ t, chStartsWith l "Convert " = false :=
      fun l hl => h l (List.mem_cons_of_mem a hl)
    by_cases hm : strHasSubstr a "DTI gradients" = true ∨
        strHasSubstr a "DTI gradient directions" = true
    · have hstep := dcm2niixStep_marker cfg s a hs ha hm
      obtain ⟨fb, hfold⟩ := ih ht { s with find_b := true, skip := false } rfl
      dsimp only at hfold
      refine ⟨fb, ?_⟩
      unfold dcm2niixProcessLines
      rw [hstep]
      dsimp only
      rw [hfold]
      cases s
      simp_all
    · push_neg at hm
      have h1 : strHasSubstr a "DTI gradients" = false := by
        cases hv : strHasSubstr a "DTI gradients" <;> simp_all
      have h2 : strHasSubstr a "DTI gradient directions" = false := by
        cases hv : strHasSubstr a "DTI gradient directions" <;> simp_all
      have hstep := dcm2niixStep_nomarker cfg s a hs ha h1 h2
      obtain ⟨fb, hfold⟩ := ih ht s hs
      refine ⟨fb, ?_⟩
      unfold dcm2niixProcessLines
      rw [hstep]
      dsimp only
      rw [hfold]

/-- Marker-free lines leave the `Dcm2nii` scan state unchanged. -/
theorem dcm2niiProcessLines_nomarker (cfg : Dcm2niiConfig) (lines : List String)
    (h : ∀ l ∈ lines,
      chStartsWith l "Saving " = false ∧ chStartsWith l "GZip..." = false ∧
      chStartsWith l "Number of diffusion directions " = false ∧
      strHasSubstr l "-->" = false ∧ chStartsWith l "Reorienting as " = false ∧
      chStartsWith l "Cropping NIfTI/Analyze image " = false) :
    ∀ s : Dcm2niiState, s.skip = false →
      dcm2niiProcessLines cfg s lines = some s := by
  induction lines with
  | nil => intro s _; rfl
  | cons a t ih =>
    intro s hs
    obtain ⟨h1, h2, h3, h4, h5, h6⟩ := h a (List.mem_cons_self a t)
    have hstep := dcm2niiStep_nomarker cfg s a hs h1 h2 h3 h4 h5 h6
    unfold dcm2niiProcessLines
    rw [hstep]
    exact ih (fun l hl => h l (List.mem_cons_of_mem a hl)) s hs

/-- Shared example configuration for the `Dcm2nii` scraper. -/
def cfgNii : Dcm2niiConfig := ⟨some "/out", "/cwd"⟩

/-- Shared example configuration for the `Dcm2niix` scraper. -/
def cfgNiix : Dcm2niixConfig := ⟨some "/data/out", "/cwd", true, 'i'⟩

/-- C1: for every stdout containing zero recognized markers (no line
starting with "Saving ", "GZip...", "Number of diffusion directions ",
"Reorienting as ", "Cropping NIfTI/Analyze image ", "Convert ", no line
matching the "-->" pattern, and no line containing "DTI gradients" or
"DTI gradient directions"), both `Dcm2nii._parse_stdout` and
`Dcm2niix._parse_stdout` return with every output-category sequence empty
and raise no exception. -/
theorem claim1_no_markers_empty (cfg : Dcm2niiConfig) (cfg2 : Dcm2niixConfig)
    (stdout : String)
    (h : ∀ l ∈ splitOnNl stdout,
      chStartsWith l "Saving " = false ∧ chStartsWith l "GZip..." = false ∧
      chStartsWith l "Number of diffusion directions " = false ∧
      chStartsWith l "Reorienting as " = false ∧
      chStartsWith l "Cropping NIfTI/Analyze image " = false ∧
      chStartsWith l "Convert " = false ∧
      strHasSubstr l "-->" = false ∧
      strHasSubstr l "DTI gradients" = false ∧
      strHasSubstr l "DTI gradient directions" = false) :
    Dcm2nii.parse_stdout cfg stdout = some ([], [], [], [], []) ∧
    Dcm2niix.parse_stdout cfg2 stdout = some (Dcm2niixResult.three [] [] []) := by
  constructor
  · unfold Dcm2nii.parse_stdout Dcm2nii.parse_lines
    rw [dcm2niiProcessLines_nomarker cfg (splitOnNl stdout)
      (fun l hl => ⟨(h l hl).1, (h l hl).2.1, (h l hl).2.2.1, (h l hl).2.2.2.2.2.2.1,
                    (h l hl).2.2.2.1, (h l hl).2.2.2.2.1⟩)
      initDcm2niiState rfl]
    rfl
  · unfold Dcm2niix.parse_stdout Dcm2niix.parse_lines
    obtain ⟨fb, hfold⟩ := dcm2niixProcessLines_noConvert cfg2 (splitOnNl stdout)
      (fun l hl => (h l hl).2.2.2.2.2.1) initDcm2niixState rfl
    rw [hfold]
    rfl

/-- Witness for C1 at a concrete marker-free stdout. -/
theorem claim1_no_markers_empty_witness :
    Dcm2nii.parse_stdout cfgNii "hello world\nnothing to see" = some ([], [], [], [], []) ∧
    Dcm2niix.parse_stdout cfgNiix "hello world\nnothing to see" =
      some (Dcm2niixResult.three [] [] []) :=
  claim1_no_markers_empty cfgNii cfgNiix "hello world\nnothing to see" (by decide)

/-- A newline-free string splits into a single line. -/
theorem splitNlChars_no_nl (l : List Char) (h : ∀ c ∈ l, c ≠ '\n') :
    splitNlChars l = [l] := by
  induction l with
  | nil => rfl
  | cons c rest ih =>
    have hc : c ≠ '\n' := h c (List.mem_cons_self c rest)
    have hrest := ih (fun x hx => h x (List.mem_cons_of_mem c hx))
    unfold splitNlChars
    simp [hc, hrest]

/-- A newline-free stdout is a single line for the Python split. -/
theorem splitOnNl_single (line : String) (h : ∀ c ∈ line.data, c ≠ '\n') :
    splitOnNl line = [line] := by
  unfold splitOnNl
  rw [splitNlChars_no_nl line.data h]
  rfl

/-- The last-occurrence extraction fails exactly when the pattern does not
occur (for a nonempty pattern). -/
theorem afterLastL_eq_none (pat : List Char) (hp : pat ≠ []) (l : List Char) :
    afterLastL pat l = none ↔ hasSubstrL pat l = false := by
  induction l with
  | nil =>
    cases pat with
    | nil => exact absurd rfl hp
    | cons a b => simp [afterLastL, hasSubstrL, List.isEmpty]
  | cons c rest ih =>
    unfold afterLastL hasSubstrL
    cases har : afterLastL pat rest <;>
      cases hpre : pat.isPrefixOf (c :: rest) <;>
        simp_all

/-- C4: the line "Reorienting as /tmp/out/img_reo" immediately followed by
any single line yields exactly one reoriented-files entry and nothing else:
the skip flag is checked before classification, the continuation line is
discarded unclassified, and the flag is cleared, so the continuation line
can never trigger a new event or a renewed skip — from the initial state
and from any reachable (skip-clear) state alike. -/
theorem claim4_reorient_continuation (cfg : Dcm2niiConfig) (L : String) :
    Dcm2nii.parse_lines cfg ["Reorienting as /tmp/out/img_reo", L] =
      some ([], ["/tmp/out/img_reo"], [], [], []) ∧
    (∀ s : Dcm2niiState, s.skip = false →
      dcm2niiProcessLines cfg s ["Reorienting as /tmp/out/img_reo", L] =
        some { s with
                reoriented_files := s.reoriented_files ++ ["/tmp/out/img_reo"],
                skip := false }) := by
  have key : ∀ s : Dcm2niiState, s.skip = false →
      dcm2niiProcessLines cfg s ["Reorienting as /tmp/out/img_reo", L] =
        some { s with
                reoriented_files := s.reoriented_files ++ ["/tmp/out/img_reo"],
                skip := false } := by
    intro s hs
    have h1 := dcm2niiStep_reorient cfg s "Reorienting as /tmp/out/img_reo" hs
      (by decide) (by decide) (by decide) (by decide) (by decide)
    unfold dcm2niiProcessLines
    rw [h1]
    dsimp only
    unfold dcm2niiProcessLines
    rw [dcm2niiStep_skip cfg _ L rfl]
    rfl
  refine ⟨?_, key⟩
  unfold Dcm2nii.parse_lines
  rw [key initDcm2niiState rfl]
  rfl

/-- C9: a line that matches the recognition pattern "-->(.*)" but not the
extraction pattern ".*--> (.*)" (it contains "-->" but nowhere "--> ")
makes `Dcm2nii._parse_stdout` raise instead of returning, provided no
higher-priority prefix branch claims the line first. -/
theorem claim9_arrow_mismatch_raises (cfg : Dcm2niiConfig) (line : String)
    (h1 : chStartsWith line "Saving " = false)
    (h2 : chStartsWith line "GZip..." = false)
    (h3 : chStartsWith line "Number of diffusion directions " = false)
    (h4 : strHasSubstr line "-->" = true)
    (h5 : strHasSubstr line "--> " = false)
    (h6 : ∀ c ∈ line.data, c ≠ '\n') :
    Dcm2nii.parse_stdout cfg line = none := by
  have hnone : afterLastStr "--> " line = none := by
    unfold afterLastStr
    rw [(afterLastL_eq_none ("--> ".data) (by decide) line.data).2 h5]
    rfl
  have hstep := dcm2niiStep_arrow_raise cfg initDcm2niiState line rfl h1 h2 h3 h4 hnone
  unfold Dcm2nii.parse_stdout Dcm2nii.parse_lines
  rw [splitOnNl_single line h6]
  unfold dcm2niiProcessLines
  rw [hstep]
  rfl

/-- Witness for C9: the concrete line "a-->b" raises. -/
theorem claim9_arrow_mismatch_raises_witness :
    Dcm2nii.parse_stdout cfgNii "a-->b" = none :=
  claim9_arrow_mismatch_raises cfgNii "a-->b" (by decide) (by decide) (by decide)
    (by decide) (by decide) (by decide)

/-- C10: a line starting with "Convert " that contains no substring
matching \S+/\S+ (no token with an internal slash) makes
`Dcm2niix._parse_stdout` raise instead of returning. -/
theorem claim10_convert_no_path_raises (cfg : Dcm2niixConfig) (line : String)
    (h1 : chStartsWith line "Convert " = true)
    (h2 : searchSlashToken line = none)
    (h3 : ∀ c ∈ line.data, c ≠ '\n') :
    Dcm2niix.parse_stdout cfg line = none := by
  have hstep := dcm2niixStep_convert_raise cfg initDcm2niixState line rfl h1 h2
  unfold Dcm2niix.parse_stdout Dcm2niix.parse_lines
  rw [splitOnNl_single line h3]
  unfold dcm2niixProcessLines
  rw [hstep]
  rfl

/-- Witness for C10: the concrete line "Convert done" raises. -/
theorem claim10_convert_no_path_raises_witness :
    Dcm2niix.parse_stdout cfgNiix "Convert done" = none :=
  claim10_convert_no_path_raises cfgNiix "Convert done" (by decide) (by decide)
    (by decide)

/-- The tuple unpacking performed by `Dcm2niix._run_interface`
(src/nipype/interfaces/dcm2nii.py, lines 195-203): with `bids_format` set
it unpacks four values, otherwise three; unpacking a result of the wrong
arity raises (`none`). -/
def Dcm2niix.run_unpack (cfg : Dcm2niixConfig) (stdout : String) :
    Option (List String × List String × List String × Option (List String)) :=
  match Dcm2niix.parse_stdout cfg stdout with
  | none => none
  | some r =>
    if cfg.bids_format then
      match r with
      | .four f v b j => some (f, v, b, some j)
      | .three _ _ _ => none
    else
      match r with
      | .three f v b => some (f, v, b, none)
      | .four _ _ _ _ => none

/-- C8: `Dcm2niix._parse_stdout` returns a 3-tuple exactly when no BIDS
sidecar was collected; with `bids_format` enabled but no "Convert " line in
stdout it therefore returns a 3-tuple and the 4-way unpacking in
`Dcm2niix._run_interface` fails. -/
theorem claim8_variable_arity_unpack_fails (cfg : Dcm2niixConfig) (stdout : String)
    (hb : cfg.bids_format = true)
    (h : ∀ l ∈ splitOnNl stdout, chStartsWith l "Convert " = false) :
    Dcm2niix.parse_stdout cfg stdout = some (Dcm2niixResult.three [] [] []) ∧
    Dcm2niix.run_unpack cfg stdout = none := by
  obtain ⟨fb, hfold⟩ :=
    dcm2niixProcessLines_noConvert cfg (splitOnNl stdout) h initDcm2niixState rfl
  have hp : Dcm2niix.parse_stdout cfg stdout = some (Dcm2niixResult.three [] [] []) := by
    unfold Dcm2niix.parse_stdout Dcm2niix.parse_lines
    rw [hfold]
    rfl
  refine ⟨hp, ?_⟩
  unfold Dcm2niix.run_unpack
  rw [hp, hb]
  rfl

/-- Witness for C8 at a concrete Convert-free stdout with BIDS enabled. -/
theorem claim8_variable_arity_unpack_fails_witness :
    Dcm2niix.parse_stdout cfgNiix "no paths here\nstill none" =
      some (Dcm2niixResult.three [] [] []) ∧
    Dcm2niix.run_unpack cfgNiix "no paths here\nstill none" = none :=
  claim8_variable_arity_unpack_fails cfgNiix "no paths here\nstill none" rfl (by decide)

/-- A guarded default-dot list is never empty. -/
theorem ifEmptyDot_ne_nil (a : List Char) : (if a = [] then ['.'] else a) ≠ [] := by
  split
  · simp
  · assumption

/-- Normalization never returns the empty character list. -/
theorem pyNormpathL_ne_nil (p : List Char) : pyNormpathL p ≠ [] := by
  unfold pyNormpathL
  split
  · simp
  · exact ifEmptyDot_ne_nil _

/-- An absolute-path resolution is never the empty (falsy) string. -/
theorem pyAbspath_ne_empty (cwd p : String) : pyAbspath cwd p ≠ "" := by
  unfold pyAbspath pyNormpath
  intro hcon
  have : ∀ q : List Char, (⟨pyNormpathL q⟩ : String) = "" → False := by
    intro q hq
    exact pyNormpathL_ne_nil q (by
      have := congrArg String.data hq
      simpa using this)
  split at hcon
  · exact this _ hcon
  · exact this _ hcon

/-- Packaging a `Dcm2niix` final state keeps the files component. -/
theorem dcm2niixPack_resFiles (s : Dcm2niixState) :
    (if s.bids = [] then Dcm2niixResult.three s.files s.bvecs s.bvals
     else Dcm2niixResult.four s.files s.bvecs s.bvals s.bids).resFiles = s.files := by
  split <;> rfl

/-- Packaging a `Dcm2niix` final state keeps the bvecs component. -/
theorem dcm2niixPack_resBvecs (s : Dcm2niixState) :
    (if s.bids = [] then Dcm2niixResult.three s.files s.bvecs s.bvals
     else Dcm2niixResult.four s.files s.bvecs s.bvals s.bids).resBvecs = s.bvecs := by
  split <;> rfl

/-- Packaging a `Dcm2niix` final state keeps the bvals component. -/
theorem dcm2niixPack_resBvals (s : Dcm2niixState) :
    (if s.bids = [] then Dcm2niixResult.three s.files s.bvecs s.bvals
     else Dcm2niixResult.four s.files s.bvecs s.bvals s.bids).resBvals = s.bvals := by
  split <;> rfl

/-- Packaging a `Dcm2niix` final state keeps the bids component. -/
theorem dcm2niixPack_resBids (s : Dcm2niixState) :
    (if s.bids = [] then Dcm2niixResult.three s.files s.bvecs s.bvals
     else Dcm2niixResult.four s.files s.bvecs s.bvals s.bids).resBids = s.bids := by
  split
  · rename_i h
    rw [Dcm2niixResult.resBids, h]
  · rfl

/-- With the pending-gradient flag set, the Convert update appends exactly
the two companion gradient paths. -/
theorem dcm2niixConvertUpdate_grad (cfg : Dcm2niixConfig) (s : Dcm2niixState)
    (out : String) (h : s.find_b = true) :
    (dcm2niixConvertUpdate cfg s out).bvecs = s.bvecs ++ [out ++ ".bvec"] ∧
    (dcm2niixConvertUpdate cfg s out).bvals = s.bvals ++ [out ++ ".bval"] := by
  unfold dcm2niixConvertUpdate
  dsimp only
  rw [if_pos h]
  split <;> split <;> exact ⟨rfl, rfl⟩

/-- The Convert update appends the expected converted-file entry:
extension ".nii" when compression is disabled, ".nii.gz" otherwise, and a
".json" bids entry when `bids_format` is enabled. -/
theorem dcm2niixConvertUpdate_files (cfg : Dcm2niixConfig) (s : Dcm2niixState)
    (out : String) :
    ((dcm2niixConvertUpdate cfg s out).files =
      (if s.find_b then
        { s with bvecs := s.bvecs ++ [out ++ ".bvec"],
                 bvals := s.bvals ++ [out ++ ".bval"], find_b := false }
       else s).files ++
      [out ++ (if cfg.compress = 'n' then ".nii" else ".nii.gz")]) ∧
    ((dcm2niixConvertUpdate cfg s out).bids =
      s.bids ++ (if cfg.bids_format then [out ++ ".json"] else [])) := by
  unfold dcm2niixConvertUpdate
  dsimp only
  constructor
  · split <;> split <;> split <;> simp_all
  · split <;> split <;> split <;> simp_all

/-- C5 (amended): whenever a line containing "DTI gradient directions" (or
"DTI gradients") that is not itself a "Convert " line is immediately
followed by the line "Convert SUBJ/dwi", and the parse completes without
raising, the gradient-vector sequence contains "SUBJ/dwi.bvec" and the
gradient-value sequence contains "SUBJ/dwi.bval", each resolved against the
output directory; and a gradient marker with no subsequent "Convert " line
at all contributes nothing (all path sequences stay empty). -/
theorem claim5_gradient_marker_convert (cfg : Dcm2niixConfig) :
    (∀ (stdout : String) (pre : List String) (g : String) (post : List String)
       (r : Dcm2niixResult),
      splitOnNl stdout = pre ++ g :: "Convert SUBJ/dwi" :: post →
      chStartsWith g "Convert " = false →
      (strHasSubstr g "DTI gradients" = true ∨
       strHasSubstr g "DTI gradient directions" = true) →
      Dcm2niix.parse_stdout cfg stdout = some r →
      (pyAbspath cfg.cwd (pyJoin (cfg.output_dir.getD cfg.cwd) "SUBJ/dwi") ++ ".bvec")
          ∈ r.resBvecs ∧
      (pyAbspath cfg.cwd (pyJoin (cfg.output_dir.getD cfg.cwd) "SUBJ/dwi") ++ ".bval")
          ∈ r.resBvals) ∧
    (∀ lines : List String, (∀ l ∈ lines, chStartsWith l "Convert " = false) →
      Dcm2niix.parse_lines cfg lines = some (Dcm2niixResult.three [] [] [])) := by
  constructor
  · intro stdout pre g post r hsplit hgc hgm hsucc
    unfold Dcm2niix.parse_stdout Dcm2niix.parse_lines at hsucc
    rw [hsplit] at hsucc
    cases hproc : dcm2niixProcessLines cfg initDcm2niixState
        (pre ++ g :: "Convert SUBJ/dwi" :: post) with
    | none => rw [hproc] at hsucc; cases hsucc
    | some sfin =>
      rw [hproc] at hsucc
      have hr : (if sfin.bids = [] then
          Dcm2niixResult.three sfin.files sfin.bvecs sfin.bvals
        else Dcm2niixResult.four sfin.files sfin.bvecs sfin.bvals sfin.bids) = r := by
        injection hsucc
      have happ := dcm2niixProcessLines_append cfg initDcm2niixState pre
        (g :: "Convert SUBJ/dwi" :: post)
      rw [hproc] at happ
      cases hpre : dcm2niixProcessLines cfg initDcm2niixState pre with
      | none => rw [hpre] at happ; cases happ
      | some s0 =>
        rw [hpre] at happ
        dsimp only at happ
        have hs0 : s0.skip = false :=
          dcm2niixProcessLines_skip_false cfg initDcm2niixState pre s0 hpre rfl
        have hstep1 := dcm2niixStep_marker cfg s0 g hs0 hgc hgm
        unfold dcm2niixProcessLines at happ
        rw [hstep1] at happ
        dsimp only at happ
        have hstep2 := dcm2niixStep_convert cfg { s0 with find_b := true, skip := false }
          "Convert SUBJ/dwi" "SUBJ/dwi" rfl (by decide) (by decide)
          (pyAbspath_ne_empty cfg.cwd (pyJoin (cfg.output_dir.getD cfg.cwd) "SUBJ/dwi"))
        unfold dcm2niixProcessLines at happ
        rw [hstep2] at happ
        dsimp only at happ
        have hle := dcm2niixProcessLines_le cfg _ post sfin happ.symm
        obtain ⟨hbvec, hbval⟩ := dcm2niixConvertUpdate_grad cfg
          { s0 with find_b := true, skip := false }
          (pyAbspath cfg.cwd (pyJoin (cfg.output_dir.getD cfg.cwd) "SUBJ/dwi")) rfl
        constructor
        · rw [← hr, dcm2niixPack_resBvecs]
          apply hle.2.1.subset
          rw [hbvec]
          simp
        · rw [← hr, dcm2niixPack_resBvals]
          apply hle.2.2.1.subset
          rw [hbval]
          simp
  · intro lines h
    obtain ⟨fb, hfold⟩ :=
      dcm2niixProcessLines_noConvert cfg lines h initDcm2niixState rfl
    unfold Dcm2niix.parse_lines
    rw [hfold]
    rfl

/-- Configuration with compression disabled and BIDS disabled, used to
exhibit counterexamples. -/
def cfgNiixCex : Dcm2niixConfig := ⟨some "/data/out", "/cwd", false, 'n'⟩

/-- Counterexample to C5 as stated: a line that contains "DTI gradients"
but itself starts with "Convert " is consumed by the Convert branch, so the
pending-gradient flag is never set and the immediately following
"Convert SUBJ/dwi" line yields no gradient entries. -/
theorem claim5_counterexample :
    strHasSubstr "Convert a/b with DTI gradients" "DTI gradients" = true ∧
    Dcm2niix.parse_stdout cfgNiixCex
        "Convert a/b with DTI gradients\nConvert SUBJ/dwi" =
      some (Dcm2niixResult.three ["/data/out/a/b.nii", "/data/out/SUBJ/dwi.nii"] [] []) ∧
    (pyAbspath cfgNiixCex.cwd
        (pyJoin (cfgNiixCex.output_dir.getD cfgNiixCex.cwd) "SUBJ/dwi") ++ ".bvec")
      ∉ (Dcm2niixResult.three ["/data/out/a/b.nii", "/data/out/SUBJ/dwi.nii"] [] []).resBvecs := by
  refine ⟨by decide, by decide, by decide⟩

/-- Witness for the amended C5 at a concrete two-line stdout. -/
theorem claim5_gradient_marker_convert_witness :
    (pyAbspath cfgNiix.cwd (pyJoin (cfgNiix.output_dir.getD cfgNiix.cwd) "SUBJ/dwi") ++ ".bvec")
        ∈ (Dcm2niixResult.four ["/data/out/SUBJ/dwi.nii.gz"] ["/data/out/SUBJ/dwi.bvec"]
            ["/data/out/SUBJ/dwi.bval"] ["/data/out/SUBJ/dwi.json"]).resBvecs ∧
    (pyAbspath cfgNiix.cwd (pyJoin (cfgNiix.output_dir.getD cfgNiix.cwd) "SUBJ/dwi") ++ ".bval")
        ∈ (Dcm2niixResult.four ["/data/out/SUBJ/dwi.nii.gz"] ["/data/out/SUBJ/dwi.bvec"]
            ["/data/out/SUBJ/dwi.bval"] ["/data/out/SUBJ/dwi.json"]).resBvals :=
  (claim5_gradient_marker_convert cfgNiix).1 "has DTI gradients\nConvert SUBJ/dwi"
    [] "has DTI gradients" []
    (Dcm2niixResult.four ["/data/out/SUBJ/dwi.nii.gz"] ["/data/out/SUBJ/dwi.bvec"]
      ["/data/out/SUBJ/dwi.bval"] ["/data/out/SUBJ/dwi.json"])
    (by decide) (by decide) (Or.inl (by decide)) (by decide)

/-- C2 (amended): when the line "Saving /tmp/out/img.nii" is immediately
followed by "Number of diffusion directions 32", the Saving line is not
itself skipped as the continuation of a preceding reorient/crop marker, and
parsing completes without raising, the converted-files sequence contains
"/tmp/out/img.nii" and the gradient sequences contain "/tmp/out/img.bvec"
and "/tmp/out/img.bval" (names derived from the last converted file). -/
theorem claim2_saving_then_gradients (cfg : Dcm2niiConfig) (stdout : String)
    (pre post : List String) (s0 : Dcm2niiState)
    (f reo rc bv bl : List String)
    (hsplit : splitOnNl stdout =
      pre ++ "Saving /tmp/out/img.nii" :: "Number of diffusion directions 32" :: post)
    (hpre : dcm2niiProcessLines cfg initDcm2niiState pre = some s0)
    (hs0 : s0.skip = false)
    (hsucc : Dcm2nii.parse_stdout cfg stdout = some (f, reo, rc, bv, bl)) :
    "/tmp/out/img.nii" ∈ f ∧ "/tmp/out/img.bvec" ∈ bv ∧ "/tmp/out/img.bval" ∈ bl := by
  unfold Dcm2nii.parse_stdout Dcm2nii.parse_lines at hsucc
  rw [hsplit] at hsucc
  cases hproc : dcm2niiProcessLines cfg initDcm2niiState
      (pre ++ "Saving /tmp/out/img.nii" :: "Number of diffusion directions 32" :: post) with
  | none => rw [hproc] at hsucc; cases hsucc
  | some sfin =>
    rw [hproc] at hsucc
    dsimp only [Option.map] at hsucc
    injection hsucc with htup
    simp only [Prod.mk.injEq] at htup
    obtain ⟨h1, h2, h3, h4, h5⟩ := htup
    subst h1; subst h2; subst h3; subst h4; subst h5
    have happ := dcm2niiProcessLines_append cfg initDcm2niiState pre
      ("Saving /tmp/out/img.nii" :: "Number of diffusion directions 32" :: post)
    rw [hproc, hpre] at happ
    dsimp only at happ
    have hstep1 := dcm2niiStep_saving cfg s0 "Saving /tmp/out/img.nii" hs0
      (by decide) (by decide)
    unfold dcm2niiProcessLines at happ
    rw [hstep1] at happ
    dsimp only at happ
    have hstep2 := dcm2niiStep_ndiff cfg
      { s0 with files := s0.files ++ [strDropN "Saving /tmp/out/img.nii" ("Saving ".length)],
                last_added_file := some (strDropN "Saving /tmp/out/img.nii" ("Saving ".length)) }
      "Number of diffusion directions 32"
      (strDropN "Saving /tmp/out/img.nii" ("Saving ".length))
      hs0 (by decide) (by decide) (by decide) (by decide) (by decide) rfl (by decide)
    unfold dcm2niiProcessLines at happ
    rw [hstep2] at happ
    dsimp only at happ
    have hle := dcm2niiProcessLines_le cfg _ post sfin happ.symm
    refine ⟨?_, ?_, ?_⟩
    · apply hle.1.subset
      exact List.mem_append_right _ (by decide)
    · apply hle.2.2.2.1.subset
      exact List.mem_append_right _ (by decide)
    · apply hle.2.2.2.2.subset
      exact List.mem_append_right _ (by decide)

/-- Counterexample to C2 as stated: a preceding "Reorienting as " line sets
the skip flag, the Saving line is consumed as its continuation, and no
converted file or gradient companion is recorded at all. -/
theorem claim2_counterexample :
    Dcm2nii.parse_stdout cfgNii
        "Reorienting as x\nSaving /tmp/out/img.nii\nNumber of diffusion directions 32" =
      some ([], ["x"], [], [], []) ∧
    "/tmp/out/img.nii" ∉ ([] : List String) := by
  refine ⟨by decide, by decide⟩

/-- Witness for the amended C2 at a concrete two-line stdout. -/
theorem claim2_saving_then_gradients_witness :
    "/tmp/out/img.nii" ∈ ["/tmp/out/img.nii"] ∧
    "/tmp/out/img.bvec" ∈ ["/tmp/out/img.bvec"] ∧
    "/tmp/out/img.bval" ∈ ["/tmp/out/img.bval"] :=
  claim2_saving_then_gradients cfgNii
    "Saving /tmp/out/img.nii\nNumber of diffusion directions 32"
    [] [] initDcm2niiState
    ["/tmp/out/img.nii"] [] [] ["/tmp/out/img.bvec"] ["/tmp/out/img.bval"]
    (by decide) rfl rfl (by decide)

/-- Appending the ".nii" extension makes the final character an i. -/
theorem append_nii_last (x : String) : (x ++ ".nii").data.getLast? = some 'i' := by
  have hsplit : (".nii".data : List Char) = ['.', 'n', 'i'] ++ ['i'] := rfl
  rw [String.data_append, hsplit, ← List.append_assoc]
  exact List.getLast?_concat _

/-- Each `Dcm2niix` iteration either leaves the converted-files and bids
lists untouched or appends one converted entry (with the extension selected
by the compression mode) together with its optional sidecar entry. -/
theorem dcm2niixStep_files_cases (cfg : Dcm2niixConfig) (s : Dcm2niixState)
    (line : String) (s1 : Dcm2niixState) (h : dcm2niixStep cfg s line = some s1) :
    (s1.files = s.files ∧ s1.bids = s.bids) ∨
    (∃ out : String,
      s1.files = s.files ++ [out ++ (if cfg.compress = 'n' then ".nii" else ".nii.gz")] ∧
      s1.bids = s.bids ++ (if cfg.bids_format then [out ++ ".json"] else [])) := by
  unfold dcm2niixStep at h
  dsimp only at h
  split at h
  · cases h; left; exact ⟨rfl, rfl⟩
  · split at h
    · cases hst : searchSlashToken line with
      | none => rw [hst] at h; cases h
      | some fname =>
        rw [hst] at h
        dsimp only at h
        split at h
        · cases h
          left
          constructor <;> (dsimp only; split <;> rfl)
        · cases h
          right
          refine ⟨pyAbspath cfg.cwd (pyJoin (cfg.output_dir.getD cfg.cwd) fname),
            ?_, ?_⟩ <;> (split <;> split <;> split <;> simp_all)
    · split at h <;> cases h <;> left <;> exact ⟨rfl, rfl⟩

/-- With compression disabled every file the `Dcm2niix` step appends ends
in the character i (it carries the ".nii" extension). -/
theorem dcm2niixStep_files_lasti (cfg : Dcm2niixConfig) (s : Dcm2niixState)
    (line : String) (s1 : Dcm2niixState) (hcomp : cfg.compress = 'n')
    (h : dcm2niixStep cfg s line = some s1)
    (hinv : ∀ f ∈ s.files, f.data.getLast? = some 'i') :
    ∀ f ∈ s1.files, f.data.getLast? = some 'i' := by
  rcases dcm2niixStep_files_cases cfg s line s1 h with ⟨hf, _⟩ | ⟨out, hf, _⟩
  · rw [hf]; exact hinv
  · rw [hf, if_pos hcomp]
    intro f hmem
    rcases List.mem_append.1 hmem with h2 | h2
    · exact hinv f h2
    · rw [List.mem_singleton.1 h2]
      exact append_nii_last out

/-- With BIDS generation enabled, each `Dcm2niix` step appends matching
numbers of converted files and sidecar entries. -/
theorem dcm2niixStep_bids_len (cfg : Dcm2niixConfig) (s : Dcm2niixState)
    (line : String) (s1 : Dcm2niixState) (hb : cfg.bids_format = true)
    (h : dcm2niixStep cfg s line = some s1)
    (hinv : s.bids.length = s.files.length) :
    s1.bids.length = s1.files.length := by
  rcases dcm2niixStep_files_cases cfg s line s1 h with ⟨hf, hbids⟩ | ⟨out, hf, hbids⟩
  · rw [hf, hbids]; exact hinv
  · rw [hf, hbids, if_pos hb]
    simp [hinv]

/-- With compression disabled every converted file recorded by the whole
`Dcm2niix` loop ends in the character i. -/
theorem dcm2niixProcessLines_files_lasti (cfg : Dcm2niixConfig)
    (lines : List String) (hcomp : cfg.compress = 'n') :
    ∀ s s1 : Dcm2niixState, dcm2niixProcessLines cfg s lines = some s1 →
      (∀ f ∈ s.files, f.data.getLast? = some 'i') →
      ∀ f ∈ s1.files, f.data.getLast? = some 'i' := by
  induction lines with
  | nil => intro s s1 h hinv; cases h; exact hinv
  | cons a t ih =>
    intro s s1 h hinv
    unfold dcm2niixProcessLines at h
    cases hstep : dcm2niixStep cfg s a with
    | none => rw [hstep] at h; cases h
    | some s2 =>
      rw [hstep] at h
      exact ih s2 s1 h (dcm2niixStep_files_lasti cfg s a s2 hcomp hstep hinv)

/-- With BIDS generation enabled the whole loop keeps the sidecar list and
the converted-files list in bijection (equal lengths). -/
theorem dcm2niixProcessLines_bids_len (cfg : Dcm2niixConfig)
    (lines : List String) (hb : cfg.bids_format = true) :
    ∀ s s1 : Dcm2niixState, dcm2niixProcessLines cfg s lines = some s1 →
      s.bids.length = s.files.length → s1.bids.length = s1.files.length := by
  induction lines with
  | nil => intro s s1 h hinv; cases h; exact hinv
  | cons a t ih =>
    intro s s1 h hinv
    unfold dcm2niixProcessLines at h
    cases hstep : dcm2niixStep cfg s a with
    | none => rw [hstep] at h; cases h
    | some s2 =>
      rw [hstep] at h
      exact ih s2 s1 h (dcm2niixStep_bids_len cfg s a s2 hb hstep hinv)

/-- C3: a "Convert SUBJ/img" line with output directory "/data/out" yields
"/data/out/SUBJ/img.nii" when compression is disabled (mode n) and never a
".nii.gz" entry; with any other compression mode it yields
"/data/out/SUBJ/img.nii.gz"; and with BIDS-sidecar generation enabled every
converted file contributes a ".json" sidecar path (the bids and files
sequences stay in bijection, and this line contributes
"/data/out/SUBJ/img.json"). -/
theorem claim3_convert_extensions (cfg : Dcm2niixConfig) (stdout : String)
    (pre post : List String) (r : Dcm2niixResult)
    (hod : cfg.output_dir = some "/data/out")
    (hsplit : splitOnNl stdout = pre ++ "Convert SUBJ/img" :: post)
    (hsucc : Dcm2niix.parse_stdout cfg stdout = some r) :
    (cfg.compress = 'n' →
      "/data/out/SUBJ/img.nii" ∈ r.resFiles ∧
      "/data/out/SUBJ/img.nii.gz" ∉ r.resFiles) ∧
    (cfg.compress ≠ 'n' → "/data/out/SUBJ/img.nii.gz" ∈ r.resFiles) ∧
    (cfg.bids_format = true →
      "/data/out/SUBJ/img.json" ∈ r.resBids ∧
      r.resBids.length = r.resFiles.length) := by
  unfold Dcm2niix.parse_stdout Dcm2niix.parse_lines at hsucc
  rw [hsplit] at hsucc
  cases hproc : dcm2niixProcessLines cfg initDcm2niixState
      (pre ++ "Convert SUBJ/img" :: post) with
  | none => rw [hproc] at hsucc; cases hsucc
  | some sfin =>
    rw [hproc] at hsucc
    have hr : (if sfin.bids = [] then
        Dcm2niixResult.three sfin.files sfin.bvecs sfin.bvals
      else Dcm2niixResult.four sfin.files sfin.bvecs sfin.bvals sfin.bids) = r := by
      injection hsucc
    have happ := dcm2niixProcessLines_append cfg initDcm2niixState pre
      ("Convert SUBJ/img" :: post)
    rw [hproc] at happ
    cases hpre : dcm2niixProcessLines cfg initDcm2niixState pre with
    | none => rw [hpre] at happ; cases happ
    | some s0 =>
      rw [hpre] at happ
      dsimp only at happ
      have hs0 : s0.skip = false :=
        dcm2niixProcessLines_skip_false cfg initDcm2niixState pre s0 hpre rfl
      have hout : pyAbspath cfg.cwd (pyJoin (cfg.output_dir.getD cfg.cwd) "SUBJ/img") =
          "/data/out/SUBJ/img" := by
        rw [hod]
        rfl
      have hstep := dcm2niixStep_convert cfg s0 "Convert SUBJ/img" "SUBJ/img" hs0
        (by decide) (by decide) (pyAbspath_ne_empty _ _)
      rw [hout] at hstep
      unfold dcm2niixProcessLines at happ
      rw [hstep] at happ
      dsimp only at happ
      have hle := dcm2niixProcessLines_le cfg _ post sfin happ.symm
      have hfiles := (dcm2niixConvertUpdate_files cfg s0 "/data/out/SUBJ/img").1
      have hbids := (dcm2niixConvertUpdate_files cfg s0 "/data/out/SUBJ/img").2
      refine ⟨?_, ?_, ?_⟩
      · intro hcomp
        constructor
        · rw [← hr, dcm2niixPack_resFiles]
          apply hle.1.subset
          rw [hfiles, if_pos hcomp]
          exact List.mem_append_right _ (by decide)
        · rw [← hr, dcm2niixPack_resFiles]
          intro hmem
          have hlast := dcm2niixProcessLines_files_lasti cfg
            (pre ++ "Convert SUBJ/img" :: post) hcomp initDcm2niixState sfin hproc
            (by intro f hf; cases hf) "/data/out/SUBJ/img.nii.gz" hmem
          exact absurd hlast (by decide)
      · intro hcomp
        rw [← hr, dcm2niixPack_resFiles]
        apply hle.1.subset
        rw [hfiles, if_neg hcomp]
        exact List.mem_append_right _ (by decide)
      · intro hb
        constructor
        · rw [← hr, dcm2niixPack_resBids]
          apply hle.2.2.2.subset
          rw [hbids, if_pos hb]
          exact List.mem_append_right _ (by decide)
        · rw [← hr, dcm2niixPack_resBids, dcm2niixPack_resFiles]
          exact dcm2niixProcessLines_bids_len cfg
            (pre ++ "Convert SUBJ/img" :: post) hb initDcm2niixState sfin hproc rfl

/-- Configuration with compression disabled and BIDS enabled. -/
def cfgNiixN : Dcm2niixConfig := ⟨some "/data/out", "/cwd", true, 'n'⟩

/-- Witness for C3 at the one-line stdout "Convert SUBJ/img" with
compression disabled and BIDS enabled. -/
theorem claim3_convert_extensions_witness :
    (cfgNiixN.compress = 'n' →
      "/data/out/SUBJ/img.nii" ∈ (Dcm2niixResult.four ["/data/out/SUBJ/img.nii"] [] []
          ["/data/out/SUBJ/img.json"]).resFiles ∧
      "/data/out/SUBJ/img.nii.gz" ∉ (Dcm2niixResult.four ["/data/out/SUBJ/img.nii"] [] []
          ["/data/out/SUBJ/img.json"]).resFiles) ∧
    (cfgNiixN.compress ≠ 'n' →
      "/data/out/SUBJ/img.nii.gz" ∈ (Dcm2niixResult.four ["/data/out/SUBJ/img.nii"] [] []
          ["/data/out/SUBJ/img.json"]).resFiles) ∧
    (cfgNiixN.bids_format = true →
      "/data/out/SUBJ/img.json" ∈ (Dcm2niixResult.four ["/data/out/SUBJ/img.nii"] [] []
          ["/data/out/SUBJ/img.json"]).resBids ∧
      (Dcm2niixResult.four ["/data/out/SUBJ/img.nii"] [] []
          ["/data/out/SUBJ/img.json"]).resBids.length =
        (Dcm2niixResult.four ["/data/out/SUBJ/img.nii"] [] []
          ["/data/out/SUBJ/img.json"]).resFiles.length) :=
  claim3_convert_extensions cfgNiixN "Convert SUBJ/img" [] []
    (Dcm2niixResult.four ["/data/out/SUBJ/img.nii"] [] [] ["/data/out/SUBJ/img.json"])
    rfl (by decide) (by decide)

/-! ### Dcm2nii._format_arg / Dcm2niix._format_arg (lines 38-46 and 182-193) -/

/-- Modelled from the spec: the generic base-class command formatter (an
external collaborator, not part of the source excerpt) emits, for a boolean
field, the field argstr when the value is true and omits the flag (None)
when the value is false — which is why `_format_arg` forces the value to
True after appending " n". -/
def baseFormatBool (argstr : String) (val : Bool) : Option String :=
  if val then some argstr else none

/-- The designated boolean flag set of `Dcm2nii._format_arg` (line 39). -/
def Dcm2nii.bool_opts : List String :=
  ["gzip_output", "nii_output", "anonymize", "id_in_filename", "reorient",
   "reorient_and_crop", "convert_all_pars"]

/-- `Dcm2nii._format_arg` on a boolean field: appends " y" to the argstr
for a true value, appends " n" and forces the value to True for a false
value, then delegates to the base formatter. -/
def Dcm2nii.format_arg_bool (opt argstr : String) (val : Bool) : Option String :=
  if opt ∈ Dcm2nii.bool_opts then
    if val then baseFormatBool (argstr ++ " y") val
    else baseFormatBool (argstr ++ " n") true
  else baseFormatBool argstr val

/-- The designated boolean flag set of `Dcm2niix._format_arg` (line 183). -/
def Dcm2niix.bool_opts : List String :=
  ["bids_format", "merge_imgs", "single_file", "verbose", "crop", "has_private"]

/-- `Dcm2niix._format_arg` on a boolean field. -/
def Dcm2niix.format_arg_bool (opt argstr : String) (val : Bool) : Option String :=
  if opt ∈ Dcm2niix.bool_opts then
    if val then baseFormatBool (argstr ++ " y") val
    else baseFormatBool (argstr ++ " n") true
  else baseFormatBool argstr val

/-- The designated boolean fields of the `Dcm2nii` input spec with their
declared flags (lines 14-22). -/
def Dcm2nii.bool_argstrs : List (String × String) :=
  [("gzip_output", "-g"), ("nii_output", "-n"), ("anonymize", "-a"),
   ("id_in_filename", "-i"), ("reorient", "-r"), ("reorient_and_crop", "-x"),
   ("convert_all_pars", "-v")]

/-- The designated boolean fields of the `Dcm2niix` input spec with their
declared flags (lines 138-151). -/
def Dcm2niix.bool_argstrs : List (String × String) :=
  [("bids_format", "-b"), ("merge_imgs", "-m"), ("single_file", "-s"),
   ("verbose", "-v"), ("crop", "-x"), ("has_private", "-t")]

/-- C6: for every designated boolean field of either converter and both
truth values, the emitted token sequence is the field flag followed by a
trailing token — " y" for true and " n" for false — so the flag is emitted
even for a false value rather than being omitted. -/
theorem claim6_bool_flags_always_emitted (p : String × String) (v : Bool) :
    (p ∈ Dcm2nii.bool_argstrs →
      Dcm2nii.format_arg_bool p.1 p.2 v = some (p.2 ++ (if v then " y" else " n"))) ∧
    (p ∈ Dcm2niix.bool_argstrs →
      Dcm2niix.format_arg_bool p.1 p.2 v = some (p.2 ++ (if v then " y" else " n"))) := by
  constructor <;> intro h <;> fin_cases h <;> cases v <;> rfl

/-- Witness for C6: concrete fields of both converters, both truth values. -/
theorem claim6_bool_flags_always_emitted_witness :
    Dcm2nii.format_arg_bool "gzip_output" "-g" false =
      some ("-g" ++ (if false then " y" else " n")) ∧
    Dcm2niix.format_arg_bool "crop" "-x" true =
      some ("-x" ++ (if true then " y" else " n")) :=
  ⟨(claim6_bool_flags_always_emitted ("gzip_output", "-g") false).1 (by decide),
   (claim6_bool_flags_always_emitted ("crop", "-x") true).2 (by decide)⟩

/-! ### MRtrix output filenames (src/nipype/interfaces/mrtrix/preprocess.py) -/

/-- Modelled from the spec: `nipype.utils.filemanip.fname_presuffix` is not
part of the source excerpt; per the spec the filename-suffixing utility
"splits a path into directory/basename/extension and reconstructs a sibling
filename with a new suffix/extension".  The directory (or `newpath`, made
absolute) is joined with basename ++ suffix (++ the original extension when
`use_ext` is set). -/
def fname_presuffix (cwd fname sfx : String) (use_ext : Bool)
    (newpath : Option String) : String :=
  let r := split_filename fname
  let ext := if use_ext then r.2.2 else ""
  let pth :=
    match newpath with
    | some np => pyAbspath cwd np
    | none => r.1
  pyJoin pth (r.2.1 ++ sfx ++ ext)

/-- `DWIDenoise._gen_fname` (preprocess.py, lines 46-88): raises (none) on
an empty basename, appends the extension to the suffix when `change_ext`,
and delegates to `fname_presuffix` with use_ext disabled and `newpath` the
working directory. -/
def DWIDenoise.gen_fname (cwdParam basename : String) (cwd : Option String)
    (sfx : Option String) (change_ext : Bool) (ext : String) : Option String :=
  if basename = "" then none
  else
    let cwd1 := cwd.getD cwdParam
    let sfx1 :=
      if change_ext then
        match sfx with
        | some s => if s = "" then ext else s ++ ext
        | none => ext
      else sfx.getD ""
    some (fname_presuffix cwdParam basename sfx1 false (some cwd1))

/-- `DWIDenoise._gen_outfilename` (preprocess.py, lines 90-94): the
out_file input if defined, else the generated "_denoised" name, made
absolute. -/
def DWIDenoise.gen_outfilename (cwd : String) (in_file out_file : Option String) :
    Option String :=
  match out_file with
  | some f => some (pyAbspath cwd f)
  | none =>
    match in_file with
    | some inf =>
      (DWIDenoise.gen_fname cwd inf none (some "_denoised") true ".mif").map
        (pyAbspath cwd)
    | none => none

/-- `DWI2Tensor._gen_outfilename` (preprocess.py, lines 322-324): basename
of the first input file plus "_tensor.mif". -/
def DWI2Tensor.gen_outfilename (in_file0 : String) : String :=
  (split_filename in_file0).2.1 ++ "_tensor.mif"

/-- Tensor output of `DWI2Tensor._list_outputs` (preprocess.py, lines
309-316): the generated name, made absolute, when out_filename is
undefined. -/
def DWI2Tensor.tensor_output (cwd in_file0 : String) (out_filename : Option String) :
    String :=
  match out_filename with
  | none => pyAbspath cwd (DWI2Tensor.gen_outfilename in_file0)
  | some f => pyAbspath cwd f

/-- `Threshold._gen_outfilename` (preprocess.py, lines 685-687). -/
def Threshold.gen_outfilename (in_file : String) : String :=
  (split_filename in_file).2.1 ++ "_thresh.mif"

/-- Output of `Threshold._list_outputs` (preprocess.py, lines 675-678):
always the generated name, made absolute. -/
def Threshold.out_file_output (cwd in_file : String) : String :=
  pyAbspath cwd (Threshold.gen_outfilename in_file)

/-- Specification-side formula for the MRtrix adapters: the input basename
concatenated with a fixed suffix and extension, made absolute against the
working directory. -/
def specSuffixOutput (cwd in_file sfx : String) : String :=
  pyAbspath cwd ((split_filename in_file).2.1 ++ sfx)

/-- The tail component of the Python path split contains no slash. -/
theorem pySplitL_snd_no_slash (p : List Char) : ∀ c ∈ (pySplitL p).2, c ≠ '/' := by
  intro c hc
  unfold pySplitL at hc
  dsimp only at hc
  revert hc
  split <;> intro hc <;>
    · rw [List.mem_reverse] at hc
      have := List.mem_takeWhile_imp hc
      simpa using this

/-- The basename component of `split_filename` contains no slash. -/
theorem split_filename_base_no_slash (p : String) :
    ∀ c ∈ (split_filename p).2.1.data, c ≠ '/' := by
  intro c hc
  unfold split_filename at hc
  dsimp only at hc
  revert hc
  split <;> intro hc
  · exact pySplitL_snd_no_slash p.data c hc
  · exact pySplitL_snd_no_slash p.data c (List.take_subset _ _ hc)

/-- Taking one element of an appended list. -/
theorem take1_append (a b : List Char) :
    (a ++ b).take 1 = if a = [] then b.take 1 else a.take 1 := by
  cases a <;> simp

/-- A string whose head comes from a slash-free basename (or from a
relative suffix) is not absolute. -/
theorem pyIsAbs_of_append (base sfx : String)
    (hb : ∀ c ∈ base.data, c ≠ '/') (hs : pyIsAbs sfx = false) :
    pyIsAbs (base ++ sfx) = false := by
  unfold pyIsAbs at *
  rw [String.data_append, take1_append]
  split
  · exact hs
  · rename_i hbne
    cases hbase : base.data with
    | nil => exact absurd hbase hbne
    | cons c t =>
      have hc : c ≠ '/' := hb c (by rw [hbase]; exact List.mem_cons_self c t)
      simp [hc]

/-- Joining a relative path onto an absolute one stays absolute. -/
theorem pyIsAbs_join_abs (cwd b : String) (ha : pyIsAbs cwd = true)
    (hb : pyIsAbs b = false) : pyIsAbs (pyJoin cwd b) = true := by
  unfold pyIsAbs at *
  unfold pyJoin pyJoinL
  dsimp only
  have hb2 : ¬(b.data.take 1 = ['/']) := by simpa using hb
  have hcwdne : cwd.data ≠ [] := by
    intro hcon
    rw [hcon] at ha
    simp at ha
  rw [if_neg hb2]
  split
  · rw [take1_append, if_neg hcwdne]
    exact ha
  · rw [take1_append, if_neg hcwdne]
    exact ha

/-- Resolving a relative name joined onto the absolute working directory
is the same as resolving the relative name itself. -/
theorem pyAbspath_join_of_abs (cwd b : String) (ha : pyIsAbs cwd = true)
    (hb : pyIsAbs b = false) : pyAbspath cwd (pyJoin cwd b) = pyAbspath cwd b := by
  unfold pyAbspath
  rw [if_pos (pyIsAbs_join_abs cwd b ha hb), if_neg (by simp [hb])]

/-- C7: for each MRtrix adapter with an undefined out_filename/out_file
input, the listed output path is the pure deterministic function of the
input filename claimed by the spec: the input basename concatenated with
the fixed suffix and extension (_denoised.mif, _tensor.mif, _thresh.mif),
made absolute against the working directory. -/
theorem claim7_mrtrix_output_names (cwd in_file : String)
    (habs : pyIsAbs cwd = true) (hnorm : pyNormpath cwd = cwd)
    (hne : in_file ≠ "") :
    DWIDenoise.gen_outfilename cwd (some in_file) none =
      some (specSuffixOutput cwd in_file "_denoised.mif") ∧
    DWI2Tensor.tensor_output cwd in_file none =
      specSuffixOutput cwd in_file "_tensor.mif" ∧
    Threshold.out_file_output cwd in_file =
      specSuffixOutput cwd in_file "_thresh.mif" := by
  have hAbsCwd : pyAbspath cwd cwd = cwd := by
    unfold pyAbspath
    rw [if_pos habs]
    exact hnorm
  have hbase := split_filename_base_no_slash in_file
  have hrelAbs : pyIsAbs ((split_filename in_file).2.1 ++ ("_denoised" ++ ".mif")) = false :=
    pyIsAbs_of_append _ _ hbase (by decide)
  refine ⟨?_, ?_, ?_⟩
  · have h1 : DWIDenoise.gen_outfilename cwd (some in_file) none =
        some (pyAbspath cwd (pyJoin (pyAbspath cwd cwd)
          ((split_filename in_file).2.1 ++ ("_denoised" ++ ".mif") ++ ""))) := by
      unfold DWIDenoise.gen_outfilename DWIDenoise.gen_fname fname_presuffix
      dsimp only
      rw [if_neg hne]
      rfl
    rw [h1, hAbsCwd, String.append_empty,
      pyAbspath_join_of_abs cwd _ habs hrelAbs]
    unfold specSuffixOutput
    rfl
  · unfold DWI2Tensor.tensor_output DWI2Tensor.gen_outfilename specSuffixOutput
    rfl
  · unfold Threshold.out_file_output Threshold.gen_outfilename specSuffixOutput
    rfl

/-- Witness for C7 at a concrete working directory and input filename. -/
theorem claim7_mrtrix_output_names_witness :
    DWIDenoise.gen_outfilename "/work" (some "dwi.mif") none =
      some (specSuffixOutput "/work" "dwi.mif" "_denoised.mif") ∧
    DWI2Tensor.tensor_output "/work" "dwi.mif" none =
      specSuffixOutput "/work" "dwi.mif" "_tensor.mif" ∧
    Threshold.out_file_output "/work" "dwi.mif" =
      specSuffixOutput "/work" "dwi.mif" "_thresh.mif" :=
  claim7_mrtrix_output_names "/work" "dwi.mif" (by decide) (by decide) (by decide)
